import Mathlib

/-!
Verification development for the Vietnam coastlines pipeline.

The repository consists of a prototyping notebook
(`src/notebooks/Vietnam_coastlines_generation.ipynb`) that drives the
`coastlines` package, and an Argo workflow manifest
(`src/unnamed/part_000`) that fans the same pipeline out over spatial
tiles and merges the tile outputs.  The bodies of the `coastlines`
library functions (`filter_by_tides`, `generate_yearly_composites`,
`points_on_line`, `annual_movements`, `calculate_regressions`,
`all_time_stats`, `export_results`, `coastlines-merge`) are not part of
the repository snapshot; where a claim depends on them they are modelled
from the specification, as marked in each doc comment.  Control flow
that is visible in the notebook (the `try/except KeyError` around point
generation, the `points_gdf is not None and len(points_gdf) > 0` guards,
the unconditional `export_results` call, the reindex column list) and
the Argo DAG gating (`depends: process-id.AnySucceeded`) are embedded
directly from the source.

Heights, distances and water-index values are modelled as exact
rationals.
-/

namespace Coastlines

/-! Section: TideFilter -/

/-- One satellite observation of the stack, reduced to the fields the
tide filter reads: an acquisition timestamp and the modelled tide height
at that instant. -/
structure Obs where
  time : Nat
  tide : ℚ
deriving Repr, DecidableEq

/-- Maximum of a list of rationals (0 for the empty list). -/
def listMax : List ℚ → ℚ
  | [] => 0
  | x :: xs => xs.foldl max x

/-- Minimum of a list of rationals (0 for the empty list). -/
def listMin : List ℚ → ℚ
  | [] => 0
  | x :: xs => xs.foldl min x

/-- Sum of a list of rationals. -/
def listSum (xs : List ℚ) : ℚ := xs.foldl (· + ·) 0

/-- Arithmetic mean of a list of rationals (0 for the empty list). -/
def listMean (xs : List ℚ) : ℚ := listSum xs / (xs.length : ℚ)

/-- Empirical tidal range of a stack: maximum minus minimum modelled
tide height over the whole stack. -/
def tidalRange (stack : List Obs) : ℚ :=
  listMax (stack.map Obs.tide) - listMin (stack.map Obs.tide)

/-- Mean modelled tide height over the whole stack. -/
def stackMeanTide (stack : List Obs) : ℚ :=
  listMean (stack.map Obs.tide)

/-- The default retention fraction of the tide filter. -/
def defaultFraction : ℚ := 1 / 2

/-- Modelled from the spec: the body of `filter_by_tides` (imported by
the notebook from `coastlines.combined`) is not under `src/`.  Per the
spec (§4.1): compute the empirical tidal range (max − min modelled
height) across the whole stack and retain observations whose modelled
height lies within `fraction × range / 2` of the stack's mean tide
height.  Tide modelling itself (reading the FES2014 grids) is abstracted
into the `tide` field of each observation. -/
def filter_by_tides (stack : List Obs) (fraction : ℚ) : List Obs :=
  stack.filter (fun o =>
    |o.tide - stackMeanTide stack| ≤ fraction * tidalRange stack / 2)

/-- C1: `filter_by_tides` at the default fraction 0.5 retains
exactly the observations of the stack whose modelled tide height lies
within `0.5 × range / 2` of the stack's mean tide height; equivalently
the retained window is the interval of width `range / 2` (50 percent of
the observed tidal range) centred on the mean tide height. -/
theorem filter_by_tides_default_window (stack : List Obs) (o : Obs) :
    o ∈ filter_by_tides stack defaultFraction ↔
      o ∈ stack ∧
        stackMeanTide stack - tidalRange stack / 4 ≤ o.tide ∧
        o.tide ≤ stackMeanTide stack + tidalRange stack / 4 := by
  unfold filter_by_tides defaultFraction
  rw [List.mem_filter]
  constructor
  · rintro ⟨hmem, hp⟩
    rw [decide_eq_true_eq, abs_le] at hp
    exact ⟨hmem, by linarith [hp.1, hp.2], by linarith [hp.1, hp.2]⟩
  · rintro ⟨hmem, h1, h2⟩
    refine ⟨hmem, ?_⟩
    rw [decide_eq_true_eq, abs_le]
    constructor <;> linarith

/-- C5: the filtered stack is a sublist of the input stack: tidal
filtering never adds, modifies, duplicates or reorders observations
(every observation occurs at most as often in the output as in the
input), and the empty stack filters to the empty stack without error. -/
theorem filter_by_tides_sublist (stack : List Obs) (fraction : ℚ) :
    (filter_by_tides stack fraction).Sublist stack ∧
      (∀ o : Obs, (filter_by_tides stack fraction).count o ≤ stack.count o) ∧
      filter_by_tides [] fraction = [] := by
  refine ⟨List.filter_sublist stack, fun o => ?_, rfl⟩
  exact (List.filter_sublist stack).count_le o

/-! Section: CompositeBuilder -/

/-- Insert a rational into a sorted list, keeping it sorted. -/
def insertSorted (x : ℚ) : List ℚ → List ℚ
  | [] => [x]
  | y :: ys => if x ≤ y then x :: y :: ys else y :: insertSorted x ys

/-- Insertion sort on rationals (ascending). -/
def sortRats (xs : List ℚ) : List ℚ := xs.foldr insertSorted []

/-- Median of a list of rationals: middle element of the sorted list for
odd length, mean of the two middle elements for even length (0 for the
empty list, which the composite builder never takes the median of). -/
def median (xs : List ℚ) : ℚ :=
  let s := sortRats xs
  let n := xs.length
  if n % 2 = 1 then s.getD (n / 2) 0
  else (s.getD (n / 2 - 1) 0 + s.getD (n / 2) 0) / 2

/-- One tidally-filtered scene of the stack handed to the composite
builder: the calendar year it falls in and its per-pixel water-index
value (`none` where the scene has no valid data for that pixel). -/
structure Scene where
  year : Nat
  pix : Nat → Option ℚ

/-- The water-index values directly observed at pixel `p` during
calendar year `y`. -/
def directVals (stack : List Scene) (y : Nat) (p : Nat) : List ℚ :=
  (stack.filter (fun s => s.year = y)).filterMap (fun s => s.pix p)

/-- The water-index values observed at pixel `p` during the centred
3-year gapfill window `[y − 1, y + 1]`. -/
def windowVals (stack : List Scene) (y : Nat) (p : Nat) : List ℚ :=
  (stack.filter (fun s => s.year ≤ y + 1 ∧ y ≤ s.year + 1)).filterMap
    (fun s => s.pix p)

/-- The 3-year gapfill composite at pixel `p`, year `y`: the median of
the window values, or no-data when the window is empty too. -/
def gapfillMedian (stack : List Scene) (y : Nat) (p : Nat) : Option ℚ :=
  if (windowVals stack y p).isEmpty then none
  else some (median (windowVals stack y p))

/-- Modelled from the spec: the body of `generate_yearly_composites`
(imported by the notebook from `coastlines.combined`) is not under
`src/`.  Per the spec (§4.2): per pixel and calendar year, take the
median of the filtered-stack values falling in that year; for a pixel
lacking direct coverage, substitute the median over the centred 3-year
window; direct and gapfilled values are never blended within one pixel;
pixels with zero data even after gapfill are no-data. -/
def generate_yearly_composites (stack : List Scene) (y : Nat) (p : Nat) :
    Option ℚ :=
  if 0 < (directVals stack y p).length then some (median (directVals stack y p))
  else gapfillMedian stack y p

/-- C2: the composite value at a pixel/year is the median of the
directly observed values whenever the pixel has direct coverage; a pixel
with zero direct observations takes the median over the centred 3-year
window instead; and the value is never a blend: it is no-data, the
direct median, or the window median. -/
theorem generate_yearly_composites_median (stack : List Scene) (y p : Nat) :
    (directVals stack y p ≠ [] →
      generate_yearly_composites stack y p =
        some (median (directVals stack y p))) ∧
    (directVals stack y p = [] →
      generate_yearly_composites stack y p = gapfillMedian stack y p) ∧
    (generate_yearly_composites stack y p = none ∨
      generate_yearly_composites stack y p =
        some (median (directVals stack y p)) ∨
      generate_yearly_composites stack y p =
        some (median (windowVals stack y p))) := by
  refine ⟨fun hne => ?_, fun he => ?_, ?_⟩
  · unfold generate_yearly_composites
    rw [if_pos (List.length_pos.mpr hne)]
  · unfold generate_yearly_composites
    rw [if_neg (by simp [he])]
  · unfold generate_yearly_composites gapfillMedian
    by_cases hd : 0 < (directVals stack y p).length
    · rw [if_pos hd]; exact Or.inr (Or.inl rfl)
    · rw [if_neg hd]
      by_cases hw : (windowVals stack y p).isEmpty
      · rw [if_pos hw]; exact Or.inl rfl
      · rw [if_neg hw]; exact Or.inr (Or.inr rfl)

/-- A concrete two-scene stack used to witness the composite theorem:
one scene in 2020 covering pixel 0 only, one scene in 2021 covering
pixels 0 and 1. -/
def demoStack : List Scene :=
  [⟨2020, fun p => if p = 0 then some 3 else none⟩,
   ⟨2021, fun p => if p ≤ 1 then some 7 else none⟩]

/-- Witness for C2: at pixel 1 in year 2020 the demo stack has no
direct observation, so the composite is the 3-year-window median 7; at
pixel 0 it has one, so the composite is the direct median 3. -/
theorem generate_yearly_composites_median_witness :
    generate_yearly_composites demoStack 2020 1 = gapfillMedian demoStack 2020 1 ∧
    generate_yearly_composites demoStack 2020 1 = some 7 ∧
    generate_yearly_composites demoStack 2020 0 = some (median (directVals demoStack 2020 0)) ∧
    generate_yearly_composites demoStack 2020 0 = some 3 := by
  refine ⟨(generate_yearly_composites_median demoStack 2020 1).2.1 (by decide), by decide,
    (generate_yearly_composites_median demoStack 2020 0).1 (by decide), by decide⟩

/-! Section: MovementMeasurer -/

/-- Keep whichever of the accumulator `a` and the candidate `t` is
nearer to the baseline point (smaller absolute signed offset), the
accumulator winning ties. -/
def pickNearer (a t : ℚ) : ℚ := if |t| < |a| then t else a

/-- The signed offset of the nearest ray/contour intersection within the
maximum valid search distance, or `none` when no intersection lies
within the bound. -/
def nearestHit (offsets : List ℚ) (maxDist : ℚ) : Option ℚ :=
  match offsets.filter (fun t => |t| ≤ maxDist) with
  | [] => none
  | x :: xs => some (xs.foldl pickNearer x)

/-- Modelled from the spec: the body of `annual_movements` (imported by
the notebook from `coastlines.vector`) is not under `src/`.  Per the
spec (§4.6): for each baseline point a ray is cast along the local
normal; for each year, `hits y` is the list of signed offsets at which
the ray intersects that year's contour, and the recorded distance is the
nearest intersection within the maximum valid distance, `NaN` (here
`none`) when no intersection lies within the bound.  The baseline point
lies on the baseline-year contour by construction, so `0 ∈ hits
baseline` there. -/
def annual_movements (hits : Nat → List ℚ) (years : List Nat)
    (maxDist : ℚ) : List (Nat × Option ℚ) :=
  years.map (fun y => (y, nearestHit (hits y) maxDist))

theorem abs_foldl_pickNearer (xs : List ℚ) (a : ℚ) :
    |xs.foldl pickNearer a| ≤ |a| ∧
      ∀ t ∈ xs, |xs.foldl pickNearer a| ≤ |t| := by
  induction xs generalizing a with
  | nil => exact ⟨le_refl _, by simp⟩
  | cons y ys ih =>
    have h1 : |pickNearer a y| ≤ |a| := by
      unfold pickNearer; split
      · exact le_of_lt (by assumption)
      · exact le_refl _
    have h2 : |pickNearer a y| ≤ |y| := by
      unfold pickNearer; split
      · exact le_refl _
      · exact le_of_not_lt (by assumption)
    have hstep : (y :: ys).foldl pickNearer a = ys.foldl pickNearer (pickNearer a y) := rfl
    rw [hstep]
    refine ⟨(ih (pickNearer a y)).1.trans h1, fun t ht => ?_⟩
    rcases List.mem_cons.mp ht with h | h
    · exact h ▸ (ih (pickNearer a y)).1.trans h2
    · exact (ih (pickNearer a y)).2 t h

theorem nearestHit_self_zero (offsets : List ℚ) (maxDist : ℚ)
    (h0 : (0 : ℚ) ∈ offsets) (hm : 0 ≤ maxDist) :
    nearestHit offsets maxDist = some 0 := by
  have h0f : (0 : ℚ) ∈ offsets.filter (fun t => |t| ≤ maxDist) :=
    List.mem_filter.mpr ⟨h0, by simpa using hm⟩
  unfold nearestHit
  rcases hl : offsets.filter (fun t => |t| ≤ maxDist) with _ | ⟨x, xs⟩
  · rw [hl] at h0f; exact absurd h0f (List.not_mem_nil 0)
  · rw [hl] at h0f
    have habs : |xs.foldl pickNearer x| ≤ |(0 : ℚ)| := by
      rcases List.mem_cons.mp h0f with h | h
      · exact h ▸ (abs_foldl_pickNearer xs x).1
      · exact (abs_foldl_pickNearer xs x).2 0 h
    have : xs.foldl pickNearer x = 0 := abs_nonpos_iff.mp (by simpa using habs)
    show some (xs.foldl pickNearer x) = some 0
    rw [this]

/-- Helper for association-list lookups: looking up a key of `l` in the
list that tabulates `f` over `l` returns `f` at that key. -/
theorem lookup_map_self {α β : Type} [BEq α] [LawfulBEq α]
    (f : α → β) (l : List α) (a : α) (h : a ∈ l) :
    (l.map (fun x => (x, f x))).lookup a = some (f a) := by
  induction l with
  | nil => exact absurd h (List.not_mem_nil a)
  | cons b l ih =>
    rcases List.mem_cons.mp h with hab | hmem
    · subst hab; simp [List.lookup]
    · by_cases hab : a = b
      · subst hab; simp [List.lookup]
      · simpa [List.lookup, beq_false_of_ne hab] using ih hmem

/-- C3: the signed distance recorded by the movement measurer for the
baseline year itself is exactly 0 for every baseline point: the point
lies on the baseline contour, so the ray hits it at offset 0, which is
the nearest possible intersection. -/
theorem annual_movements_baseline_zero (hits : Nat → List ℚ)
    (years : List Nat) (baseline : Nat) (maxDist : ℚ)
    (hy : baseline ∈ years) (h0 : (0 : ℚ) ∈ hits baseline)
    (hm : 0 ≤ maxDist) :
    (annual_movements hits years maxDist).lookup baseline = some (some 0) := by
  unfold annual_movements
  rw [lookup_map_self (fun y => nearestHit (hits y) maxDist) years baseline hy]
  rw [nearestHit_self_zero (hits baseline) maxDist h0 hm]

/-- Witness for C3: a point whose ray hits the 2021 contour at
offsets 5, 0 and −3 and the 2020 contour at offset 4 records distance 0
for the baseline year 2021. -/
theorem annual_movements_baseline_zero_witness :
    (annual_movements (fun y => if y = 2021 then [5, 0, -3] else [4])
        [2020, 2021] 10).lookup 2021 = some (some 0) :=
  annual_movements_baseline_zero
    (fun y => if y = 2021 then [5, 0, -3] else [4]) [2020, 2021] 2021 10
    (by decide) (by decide) (by decide)

/-! Section: StatsEngine -/

/-- The valid (non-`NaN`) year/distance pairs of a point record. -/
def validPairs (record : List (Nat × Option ℚ)) : List (Nat × ℚ) :=
  record.filterMap (fun yd => yd.2.map (fun v => (yd.1, v)))

/-- The element of `x :: xs` with the greatest key, the earlier element
winning ties (deterministic left fold). -/
def pickGreatest {α β : Type} [LinearOrder β] (key : α → β) (x : α)
    (xs : List α) : α :=
  xs.foldl (fun a t => if key a < key t then t else a) x

/-- The element of `x :: xs` with the least key, the earlier element
winning ties. -/
def pickLeast {α β : Type} [LinearOrder β] (key : α → β) (x : α)
    (xs : List α) : α :=
  xs.foldl (fun a t => if key t < key a then t else a) x

theorem pickGreatest_mem {α β : Type} [LinearOrder β] (key : α → β)
    (x : α) (xs : List α) : pickGreatest key x xs ∈ x :: xs := by
  induction xs generalizing x with
  | nil => exact List.mem_singleton.mpr rfl
  | cons y ys ih =>
    have hstep : pickGreatest key x (y :: ys) =
        pickGreatest key (if key x < key y then y else x) ys := rfl
    rw [hstep]
    rcases List.mem_cons.mp (ih (if key x < key y then y else x)) with h | h
    · rw [h]
      split
      · exact List.mem_cons_of_mem x (List.mem_cons_self y ys)
      · exact List.mem_cons_self x (y :: ys)
    · exact List.mem_cons_of_mem x (List.mem_cons_of_mem y h)

theorem le_pickGreatest {α β : Type} [LinearOrder β] (key : α → β)
    (x : α) (xs : List α) :
    ∀ t ∈ x :: xs, key t ≤ key (pickGreatest key x xs) := by
  induction xs generalizing x with
  | nil =>
    intro t ht
    rw [List.mem_singleton.mp ht]
    exact le_refl (key x)
  | cons y ys ih =>
    intro t ht
    have hstep : pickGreatest key x (y :: ys) =
        pickGreatest key (if key x < key y then y else x) ys := rfl
    rw [hstep]
    have hx : key x ≤ key (if key x < key y then y else x) := by
      split
      · exact le_of_lt (by assumption)
      · exact le_refl _
    have hy : key y ≤ key (if key x < key y then y else x) := by
      split
      · exact le_refl _
      · exact le_of_not_lt (by assumption)
    have hhead := ih (if key x < key y then y else x)
      (if key x < key y then y else x) (List.mem_cons_self _ ys)
    rcases List.mem_cons.mp ht with h | h
    · rw [h]; exact hx.trans hhead
    rcases List.mem_cons.mp h with h2 | h2
    · rw [h2]; exact hy.trans hhead
    · exact ih (if key x < key y then y else x) t (List.mem_cons_of_mem _ h2)

theorem pickLeast_mem {α β : Type} [LinearOrder β] (key : α → β)
    (x : α) (xs : List α) : pickLeast key x xs ∈ x :: xs := by
  induction xs generalizing x with
  | nil => exact List.mem_singleton.mpr rfl
  | cons y ys ih =>
    have hstep : pickLeast key x (y :: ys) =
        pickLeast key (if key y < key x then y else x) ys := rfl
    rw [hstep]
    rcases List.mem_cons.mp (ih (if key y < key x then y else x)) with h | h
    · rw [h]
      split
      · exact List.mem_cons_of_mem x (List.mem_cons_self y ys)
      · exact List.mem_cons_self x (y :: ys)
    · exact List.mem_cons_of_mem x (List.mem_cons_of_mem y h)

theorem pickLeast_le {α β : Type} [LinearOrder β] (key : α → β)
    (x : α) (xs : List α) :
    ∀ t ∈ x :: xs, key (pickLeast key x xs) ≤ key t := by
  induction xs generalizing x with
  | nil =>
    intro t ht
    rw [List.mem_singleton.mp ht]
    exact le_refl (key x)
  | cons y ys ih =>
    intro t ht
    have hstep : pickLeast key x (y :: ys) =
        pickLeast key (if key y < key x then y else x) ys := rfl
    rw [hstep]
    have hx : key (if key y < key x then y else x) ≤ key x := by
      split
      · exact le_of_lt (by assumption)
      · exact le_refl _
    have hy : key (if key y < key x then y else x) ≤ key y := by
      split
      · exact le_refl _
      · exact le_of_not_lt (by assumption)
    have hhead := ih (if key y < key x then y else x)
      (if key y < key x then y else x) (List.mem_cons_self _ ys)
    rcases List.mem_cons.mp ht with h | h
    · rw [h]; exact hhead.trans hx
    rcases List.mem_cons.mp h with h2 | h2
    · rw [h2]; exact hhead.trans hy
    · exact ih (if key y < key x then y else x) t (List.mem_cons_of_mem _ h2)

/-- The summary columns added by the notebook's `stats_list` step:
`valid_obs`, `valid_span`, `sce`, `nsm`, `max_year`, `min_year`. -/
structure AllTimeStats where
  valid_obs : Nat
  valid_span : Option Nat
  sce : Option ℚ
  nsm : Option ℚ
  max_year : Option Nat
  min_year : Option Nat
deriving Repr, DecidableEq

/-- Summary statistics over the valid year/distance pairs: with fewer
than two valid observations every span-derived field is an explicit
missing value; otherwise NSM is the distance at the latest valid year
minus the distance at the earliest valid year, SCE is the maximum minus
the minimum valid distance, and `max_year`/`min_year` are the years at
which the extreme distances occur. -/
def statsOfPairs : List (Nat × ℚ) → AllTimeStats
  | [] => ⟨0, none, none, none, none, none⟩
  | [_] => ⟨1, none, none, none, none, none⟩
  | x :: y :: rest =>
    let latest := pickGreatest (fun p => p.1) x (y :: rest)
    let earliest := pickLeast (fun p => p.1) x (y :: rest)
    let hi := pickGreatest (fun p => p.2) x (y :: rest)
    let lo := pickLeast (fun p => p.2) x (y :: rest)
    ⟨(x :: y :: rest).length, some (latest.1 - earliest.1),
      some (hi.2 - lo.2), some (latest.2 - earliest.2),
      some hi.1, some lo.1⟩

/-- Modelled from the spec: the body of `all_time_stats` (imported by
the notebook from `coastlines.vector`) is not under `src/`.  Per the
spec (§4.7) it computes the valid observation count, valid span,
Shoreline Change Envelope, Net Shoreline Movement and the max/min years
from the valid (non-`NaN`) per-year distances of a point record,
reporting explicit missing values when fewer than two observations are
valid. -/
def all_time_stats (record : List (Nat × Option ℚ)) : AllTimeStats :=
  statsOfPairs (validPairs record)

/-- Ordinary least-squares slope of distance against year. -/
def olsSlope (pairs : List (Nat × ℚ)) : ℚ :=
  let n : ℚ := pairs.length
  let sx := listSum (pairs.map (fun p => (p.1 : ℚ)))
  let sy := listSum (pairs.map Prod.snd)
  let sxy := listSum (pairs.map (fun p => (p.1 : ℚ) * p.2))
  let sxx := listSum (pairs.map (fun p => (p.1 : ℚ) * (p.1 : ℚ)))
  (n * sxy - sx * sy) / (n * sxx - sx * sx)

/-- Modelled from the spec: the body of `calculate_regressions`
(imported by the notebook from `coastlines.vector`) is not under
`src/`.  Per the spec (§4.7): ordinary least-squares regression of
distance against year over the valid years only; undefined (an explicit
missing value, never a crash) when fewer than two observations are
valid. -/
def calculate_regressions (record : List (Nat × Option ℚ)) : Option ℚ :=
  if (validPairs record).length < 2 then none
  else some (olsSlope (validPairs record))

theorem statsOfPairs_spec (vp : List (Nat × ℚ)) :
    (2 ≤ vp.length →
      (∃ pl pe, pl ∈ vp ∧ pe ∈ vp ∧
        (∀ p ∈ vp, p.1 ≤ pl.1) ∧ (∀ p ∈ vp, pe.1 ≤ p.1) ∧
        (statsOfPairs vp).nsm = some (pl.2 - pe.2)) ∧
      (∃ s, (statsOfPairs vp).sce = some s ∧ 0 ≤ s)) ∧
    (vp.length < 2 →
      (statsOfPairs vp).nsm = none ∧ (statsOfPairs vp).sce = none) := by
  match vp with
  | [] => exact ⟨fun h => absurd h (by simp), fun _ => ⟨rfl, rfl⟩⟩
  | [x] => exact ⟨fun h => absurd h (by simp), fun _ => ⟨rfl, rfl⟩⟩
  | x :: y :: rest =>
    refine ⟨fun _ => ⟨?_, ?_⟩, fun h => absurd h (by simp)⟩
    · exact ⟨pickGreatest (fun p => p.1) x (y :: rest),
        pickLeast (fun p => p.1) x (y :: rest),
        pickGreatest_mem _ x (y :: rest), pickLeast_mem _ x (y :: rest),
        le_pickGreatest _ x (y :: rest), pickLeast_le _ x (y :: rest), rfl⟩
    · refine ⟨(pickGreatest (fun p => p.2) x (y :: rest)).2 -
        (pickLeast (fun p => p.2) x (y :: rest)).2, rfl, ?_⟩
      have hle : (pickLeast (fun p => p.2) x (y :: rest)).2 ≤
          (pickGreatest (fun p => p.2) x (y :: rest)).2 :=
        pickLeast_le (fun p => p.2) x (y :: rest) _
          (pickGreatest_mem (fun p => p.2) x (y :: rest))
      linarith

/-- C4: with at least two valid observations, NSM is the distance at
the latest valid year minus the distance at the earliest valid year, and
SCE (max minus min of the valid distances) is a defined value ≥ 0; with
fewer than two valid observations the slope, NSM and SCE are all emitted
as explicit missing values (totally, never a crash). -/
theorem stats_engine_nsm_sce (record : List (Nat × Option ℚ)) :
    (2 ≤ (validPairs record).length →
      (∃ pl pe, pl ∈ validPairs record ∧ pe ∈ validPairs record ∧
        (∀ p ∈ validPairs record, p.1 ≤ pl.1) ∧
        (∀ p ∈ validPairs record, pe.1 ≤ p.1) ∧
        (all_time_stats record).nsm = some (pl.2 - pe.2)) ∧
      (∃ s, (all_time_stats record).sce = some s ∧ 0 ≤ s)) ∧
    ((validPairs record).length < 2 →
      calculate_regressions record = none ∧
      (all_time_stats record).nsm = none ∧
      (all_time_stats record).sce = none) := by
  have hs := statsOfPairs_spec (validPairs record)
  refine ⟨fun h => hs.1 h, fun h => ?_⟩
  exact ⟨by simp only [calculate_regressions, if_pos h], (hs.2 h).1, (hs.2 h).2⟩

/-- A demo point record with valid distances in 2020 and 2022 and a
`NaN` in 2021. -/
def demoRecord : List (Nat × Option ℚ) :=
  [(2020, some 1), (2021, none), (2022, some 5)]

/-- A demo point record with a single valid distance. -/
def demoShortRecord : List (Nat × Option ℚ) := [(2020, some 3)]

/-- Witness for C4: the two-valid-observation record gets a defined
NSM and a nonnegative SCE, and the one-valid-observation record gets
missing slope, NSM and SCE. -/
theorem stats_engine_nsm_sce_witness :
    ((∃ pl pe, pl ∈ validPairs demoRecord ∧ pe ∈ validPairs demoRecord ∧
        (∀ p ∈ validPairs demoRecord, p.1 ≤ pl.1) ∧
        (∀ p ∈ validPairs demoRecord, pe.1 ≤ p.1) ∧
        (all_time_stats demoRecord).nsm = some (pl.2 - pe.2)) ∧
      (∃ s, (all_time_stats demoRecord).sce = some s ∧ 0 ≤ s)) ∧
    (calculate_regressions demoShortRecord = none ∧
      (all_time_stats demoShortRecord).nsm = none ∧
      (all_time_stats demoShortRecord).sce = none) :=
  ⟨(stats_engine_nsm_sce demoRecord).1 (by decide),
   (stats_engine_nsm_sce demoShortRecord).2 (by decide)⟩

/-! Section: PointSampler -/

/-- The arc-length positions at which the walker emits a point along one
contour component of length `len`: the deterministic start point at
position 0 and then one point every `spacing` units. -/
def samplePositions (len spacing : ℚ) : List ℚ :=
  (List.range (⌊len / spacing⌋.toNat + 1)).map (fun k : Nat => (k : ℚ) * spacing)

/-- Sample the components starting at component index `i`, tagging each
emitted point with its component index. -/
def sampleComponents (spacing : ℚ) : Nat → List ℚ → List (Nat × ℚ)
  | _, [] => []
  | i, len :: rest =>
      (samplePositions len spacing).map (fun t => (i, t)) ++
        sampleComponents spacing (i + 1) rest

/-- Modelled from the spec: the body of `points_on_line` (imported by
the notebook from `coastlines.vector`) is not under `src/`.  Per the
spec (§4.5): walk each contour component by arc length in a fixed
deterministic order, emitting a point every `spacing` units from the
component's start point.  A component is represented by its arc length;
an emitted point is the pair (component index, arc-length position). -/
def points_on_line (components : List ℚ) (spacing : ℚ) : List (Nat × ℚ) :=
  sampleComponents spacing 0 components

/-- Total arc length of a contour: the sum of its component lengths. -/
def totalLength (components : List ℚ) : ℚ := listSum components

theorem sampleComponents_fst_le (S : ℚ) (i : Nat) (comps : List ℚ) :
    (∀ p ∈ sampleComponents S i comps, i ≤ p.1) ∧
    ((sampleComponents S i comps).map Prod.fst).Pairwise (· ≤ ·) := by
  induction comps generalizing i with
  | nil => exact ⟨fun p hp => absurd hp (by simp [sampleComponents]), by
      simp [sampleComponents]⟩
  | cons L rest ih =>
    have hmem : ∀ p ∈ sampleComponents S (i + 1) rest, i + 1 ≤ p.1 := (ih (i + 1)).1
    constructor
    · intro p hp
      simp only [sampleComponents] at hp
      rcases List.mem_append.mp hp with h | h
      · rcases List.mem_map.mp h with ⟨t, _, rfl⟩
        exact le_refl i
      · exact (Nat.le_succ i).trans (hmem p h)
    · simp only [sampleComponents]
      rw [List.map_append, List.pairwise_append]
      refine ⟨?_, (ih (i + 1)).2, ?_⟩
      · rw [List.map_map]
        exact List.pairwise_of_forall_mem_list (by simp)
      · intro a ha b hb
        rw [List.map_map] at ha
        rcases List.mem_map.mp ha with ⟨t, _, rfl⟩
        rcases List.mem_map.mp hb with ⟨p, hp, rfl⟩
        exact (Nat.le_succ i).trans (hmem p hp)

/-- C6 (amended): for a single contour component of arc length `L`
sampled at spacing `S`, the sampler emits exactly `⌊L/S⌋ + 1` points
(hence within `⌊L/S⌋ ± 1`), in contour order (strictly increasing
arc-length positions); over any multi-component contour the points are
emitted in deterministic component order.  (The original per-contour
`⌊L/S⌋ ± 1` bound fails for contours of three or more components; see
the counterexample.) -/
theorem points_on_line_component_count (L S : ℚ) (hS : 0 < S) (hL : 0 ≤ L) :
    ((points_on_line [L] S).length : ℤ) = ⌊L / S⌋ + 1 ∧
    |((points_on_line [L] S).length : ℤ) - ⌊L / S⌋| ≤ 1 ∧
    (points_on_line [L] S).Pairwise (fun a b => a.2 < b.2) ∧
    ∀ comps : List ℚ,
      ((points_on_line comps S).map Prod.fst).Pairwise (· ≤ ·) := by
  have hf0 : 0 ≤ ⌊L / S⌋ := Int.floor_nonneg.mpr (div_nonneg hL hS.le)
  have h1 : points_on_line [L] S =
      (samplePositions L S).map (fun t => ((0 : Nat), t)) := by
    simp [points_on_line, sampleComponents]
  have hlen0 : (points_on_line [L] S).length = ⌊L / S⌋.toNat + 1 := by
    rw [h1, List.length_map]
    unfold samplePositions
    rw [List.length_map, List.length_range]
  have hlen : ((points_on_line [L] S).length : ℤ) = ⌊L / S⌋ + 1 := by
    rw [hlen0]
    push_cast
    rw [Int.toNat_of_nonneg hf0]
  refine ⟨hlen, by rw [hlen]; simp, ?_, fun comps => (sampleComponents_fst_le S 0 comps).2⟩
  rw [h1]
  unfold samplePositions
  rw [List.map_map, List.pairwise_map]
  refine (List.pairwise_lt_range _).imp (fun h => ?_)
  show (_ : ℚ) * S < (_ : ℚ) * S
  exact mul_lt_mul_of_pos_right (by exact_mod_cast h) hS

/-- Witness for C6 (amended) at `L = 100`, `S = 30`. -/
theorem points_on_line_component_count_witness :
    (0 : ℚ) < 30 ∧ (0 : ℚ) ≤ 100 ∧
    (((points_on_line [(100 : ℚ)] 30).length : ℤ) = ⌊(100 : ℚ) / 30⌋ + 1 ∧
      |((points_on_line [(100 : ℚ)] 30).length : ℤ) - ⌊(100 : ℚ) / 30⌋| ≤ 1 ∧
      (points_on_line [(100 : ℚ)] 30).Pairwise (fun a b => a.2 < b.2) ∧
      ∀ comps : List ℚ,
        ((points_on_line comps 30).map Prod.fst).Pairwise (· ≤ ·)) :=
  ⟨by norm_num, by norm_num,
    points_on_line_component_count 100 30 (by norm_num) (by norm_num)⟩

/-- Counterexample for C6 as stated: a contour of three components
of length 10 each has total arc length 30, so at spacing 30 the claimed
bound is `⌊30/30⌋ ± 1 = 1 ± 1` points, but the sampler emits one start
point per component, 3 points in total. -/
theorem points_on_line_total_count_cex :
    ¬ (|((points_on_line [10, 10, 10] 30).length : ℤ) -
        ⌊totalLength [10, 10, 10] / (30 : ℚ)⌋| ≤ 1) := by
  have hfl : ⌊(10 : ℚ) / 30⌋ = 0 := by norm_num
  have h10 : samplePositions (10 : ℚ) 30 = [0] := by
    unfold samplePositions
    rw [hfl]
    simp [List.range_succ]
  have hlen : (points_on_line [10, 10, 10] 30).length = 3 := by
    simp [points_on_line, sampleComponents, h10]
  have htot : ⌊totalLength [10, 10, 10] / (30 : ℚ)⌋ = 1 := by
    norm_num [totalLength, listSum]
  rw [hlen, htot]
  decide

/-! Section: notebook control flow (point generation, guards, export).

Embedded from `src/notebooks/Vietnam_coastlines_generation.ipynb`,
cells 24–30: the `try/except KeyError` around `points_on_line`, the
`points_gdf is not None and len(points_gdf) > 0` guards on the movement
and regression cells, and the unconditional `export_results` call. -/

/-- Cell 24: extract the baseline points.  Selecting a year absent from
the contour table raises `KeyError` inside `points_on_line`; the
notebook catches it and sets `points_gdf = None`, modelled as `none`.  A
per-year contour is represented by the arc lengths of its components. -/
def makePoints (contours : List (Nat × List ℚ)) (baseline : Nat)
    (spacing : ℚ) : Option (List (Nat × ℚ)) :=
  match contours.lookup baseline with
  | none => none
  | some comps => some (points_on_line comps spacing)

/-- One processed point feature: its per-year distance record and its
summary statistics. -/
structure PointRow where
  dists : List (Nat × Option ℚ)
  stats : AllTimeStats

/-- Cells 26 and 28 under the guard: measure annual movements for every
point and attach the summary statistics.  `hits pt y` abstracts the
ray/contour intersection offsets of point `pt` against year `y`. -/
def processPoints (points : List (Nat × ℚ))
    (hits : Nat × ℚ → Nat → List ℚ) (years : List Nat) (maxDist : ℚ) :
    List PointRow :=
  points.map (fun pt =>
    let record := annual_movements (hits pt) years maxDist
    ⟨record, all_time_stats record⟩)

/-- Result of the movement/regression cells: either the explicit
"no points" condition (the notebook's printed message branch) or the
processed rows. -/
inductive PointsStage where
  | noPoints
  | processed (rows : List PointRow)

/-- Cells 26 and 28: both run only under
`points_gdf is not None and len(points_gdf) > 0`; otherwise the notebook
takes the explicit message branch and leaves the points unprocessed. -/
def downstreamPoints (contours : List (Nat × List ℚ)) (baseline : Nat)
    (spacing : ℚ) (hits : Nat × ℚ → Nat → List ℚ) (years : List Nat)
    (maxDist : ℚ) : PointsStage :=
  match makePoints contours baseline spacing with
  | none => .noPoints
  | some ps =>
      if 0 < ps.length then .processed (processPoints ps hits years maxDist)
      else .noPoints

/-- The files a tile run leaves behind: the point features (absent when
point generation failed) and the per-year contour collections. -/
structure TileOutput where
  points : Option (List PointRow)
  contours : List (Nat × List ℚ)

/-- Modelled from the spec: the body of `export_results` (imported by
the notebook from `coastlines.combined`) is not under `src/`.  Per the
spec (§6, §7) the tile's output carries the point features when any
exist and the per-year contour feature collections indexed by year; a
tile-local point-generation failure is recorded, never escalated. -/
def export_results (points_gdf : Option (List PointRow))
    (contours_gdf : List (Nat × List ℚ)) : TileOutput :=
  ⟨points_gdf, contours_gdf⟩

/-- Cells 24–30 end to end: point generation, the guarded downstream
cells, then the unconditional `export_results` call of cell 30. -/
def notebookRun (contours : List (Nat × List ℚ)) (baseline : Nat)
    (spacing : ℚ) (hits : Nat × ℚ → Nat → List ℚ) (years : List Nat)
    (maxDist : ℚ) : TileOutput :=
  export_results
    (match downstreamPoints contours baseline spacing hits years maxDist with
      | .noPoints => none
      | .processed rows => some rows)
    contours

/-- C7: when the baseline-year contour is missing from the contour
table or is empty, the point sampler produces no points (`None` from the
caught `KeyError`, or the empty point set) and the downstream movement
and regression cells short-circuit into the explicit "no points" branch
instead of failing. -/
theorem baseline_missing_short_circuit (contours : List (Nat × List ℚ))
    (baseline : Nat) (spacing : ℚ) (hits : Nat × ℚ → Nat → List ℚ)
    (years : List Nat) (maxDist : ℚ)
    (h : contours.lookup baseline = none ∨
      contours.lookup baseline = some []) :
    (makePoints contours baseline spacing).getD [] = [] ∧
    downstreamPoints contours baseline spacing hits years maxDist =
      .noPoints := by
  rcases h with h | h
  · have hmp : makePoints contours baseline spacing = none := by
      unfold makePoints; rw [h]
    exact ⟨by rw [hmp]; rfl, by unfold downstreamPoints; rw [hmp]⟩
  · have hmp : makePoints contours baseline spacing = some [] := by
      unfold makePoints; rw [h]; rfl
    refine ⟨by rw [hmp]; rfl, ?_⟩
    unfold downstreamPoints
    rw [hmp]
    rfl

/-- Witness for C7: a contour table holding only year 2020, queried
at baseline year 2021. -/
theorem baseline_missing_short_circuit_witness :
    (makePoints [(2020, [100])] 2021 30).getD [] = [] ∧
    downstreamPoints [(2020, [100])] 2021 30 (fun _ _ => []) [2020] 10 =
      .noPoints :=
  baseline_missing_short_circuit [(2020, [100])] 2021 30 (fun _ _ => [])
    [2020] 10 (Or.inl (by decide))

/-- C10: `export_results` is invoked unconditionally at the end of
the notebook: whatever happened upstream, the exported tile output
carries every per-year contour collection, and in particular when the
baseline year is missing (point generation failed) the contours are
still exported while the point features are absent. -/
theorem export_results_unconditional (contours : List (Nat × List ℚ))
    (baseline : Nat) (spacing : ℚ) (hits : Nat × ℚ → Nat → List ℚ)
    (years : List Nat) (maxDist : ℚ) :
    (notebookRun contours baseline spacing hits years maxDist).contours =
      contours ∧
    (contours.lookup baseline = none →
      (notebookRun contours baseline spacing hits years maxDist).points =
        none) := by
  refine ⟨rfl, fun h => ?_⟩
  have hmp : makePoints contours baseline spacing = none := by
    unfold makePoints; rw [h]
  unfold notebookRun downstreamPoints
  rw [hmp]
  rfl

/-- Witness for C10: the tile whose contour table holds only year
2020 still exports that contour collection at baseline year 2023, with
no point features. -/
theorem export_results_unconditional_witness :
    (notebookRun [(2020, [100])] 2023 30 (fun _ _ => []) [2020] 10).contours =
      [(2020, [100])] ∧
    (notebookRun [(2020, [100])] 2023 30 (fun _ _ => []) [2020] 10).points =
      none :=
  ⟨(export_results_unconditional [(2020, [100])] 2023 30 (fun _ _ => [])
      [2020] 10).1,
   (export_results_unconditional [(2020, [100])] 2023 30 (fun _ _ => [])
      [2020] 10).2 (by decide)⟩

/-! Section: output vector schema.

Embedded from cells 26 and 28 of the notebook: the reindex column list
`["geometry", dist_<start_year>..dist_<end_year>, "angle_mean",
"angle_std"]` and the appended `stats_list` columns. -/

/-- The per-year distance column name. -/
def distCol (y : Nat) : String := "dist_" ++ toString y

/-- The column list the notebook reindexes the point table to
(cell 26): geometry, one `dist_<year>` column per year of the inclusive
analysis range, then the angle columns.  Reindexing fills any column
absent from the data with missing values. -/
def reindexColumns (startYear endYear : Nat) : List String :=
  "geometry" ::
    ((List.range (endYear + 1 - startYear)).map (fun i => distCol (startYear + i)) ++
      ["angle_mean", "angle_std"])

/-- The summary columns appended by cell 28 (`stats_list`). -/
def stats_list : List String :=
  ["valid_obs", "valid_span", "sce", "nsm", "max_year", "min_year"]

/-- The full attribute list of an exported point feature. -/
def finalColumns (startYear endYear : Nat) : List String :=
  reindexColumns startYear endYear ++ stats_list

/-- Reindex one point feature to a column list: every requested column
is present, holding the feature's value when the feature has that column
and a missing value otherwise (pandas `reindex` semantics). -/
def reindexRow (cols : List String) (row : List (String × ℚ)) :
    List (String × Option ℚ) :=
  cols.map (fun c => (c, row.lookup c))

/-- C9: every exported point feature carries a `dist_<year>`
attribute for every year of the inclusive range `[start_year,
end_year]` — as a missing value when the year was never measured —
together with geometry, `angle_mean`, `angle_std`, `valid_obs`,
`valid_span`, `sce`, `nsm`, `max_year` and `min_year`; and the exported
contours are the per-year feature collections indexed by year. -/
theorem output_schema_columns (s e y : Nat) (h1 : s ≤ y) (h2 : y ≤ e) :
    distCol y ∈ finalColumns s e ∧
    "geometry" ∈ finalColumns s e ∧
    "angle_mean" ∈ finalColumns s e ∧
    "angle_std" ∈ finalColumns s e ∧
    (∀ c ∈ stats_list, c ∈ finalColumns s e) ∧
    (∀ row : List (String × ℚ),
      (reindexRow (finalColumns s e) row).lookup (distCol y) =
        some (row.lookup (distCol y))) ∧
    (∀ points contours, (export_results points contours).contours = contours) := by
  have hm : distCol y ∈
      (List.range (e + 1 - s)).map (fun i => distCol (s + i)) :=
    List.mem_map.mpr ⟨y - s, List.mem_range.mpr (by omega), by
      congr 1; omega⟩
  have hfin : distCol y ∈ finalColumns s e :=
    List.mem_append_left _ (List.mem_cons_of_mem _ (List.mem_append_left _ hm))
  refine ⟨hfin, ?_, ?_, ?_, ?_, ?_, fun _ _ => rfl⟩
  · exact List.mem_append_left _ (List.mem_cons_self _ _)
  · refine List.mem_append_left _ (List.mem_cons_of_mem _ ?_)
    exact List.mem_append_right _ (by simp)
  · refine List.mem_append_left _ (List.mem_cons_of_mem _ ?_)
    exact List.mem_append_right _ (by simp)
  · intro c hc
    exact List.mem_append_right _ hc
  · intro row
    exact lookup_map_self (fun c => row.lookup c) (finalColumns s e)
      (distCol y) hfin

/-- Witness for C9 at the notebook's interactive configuration:
start year 2020, end year 2022, intermediate year 2021. -/
theorem output_schema_columns_witness :
    distCol 2021 ∈ finalColumns 2020 2022 ∧
    "geometry" ∈ finalColumns 2020 2022 ∧
    "angle_mean" ∈ finalColumns 2020 2022 ∧
    "angle_std" ∈ finalColumns 2020 2022 ∧
    (∀ c ∈ stats_list, c ∈ finalColumns 2020 2022) ∧
    (∀ row : List (String × ℚ),
      (reindexRow (finalColumns 2020 2022) row).lookup (distCol 2021) =
        some (row.lookup (distCol 2021))) ∧
    (∀ points contours, (export_results points contours).contours = contours) :=
  output_schema_columns 2020 2022 2021 (by decide) (by decide)

/-! Section: TileMerger and the Argo workflow DAG.

Embedded from `src/unnamed/part_000`: the `coastlines-dag` fans the
`process` template out over the generated tile ids, and the `merge`
task depends on `process-id.AnySucceeded`, so the merge runs exactly
when at least one tile's processing succeeded. -/

/-- Outcome of the whole workflow: a merged dataset, or the terminal
failure when nothing exists to merge. -/
inductive WorkflowOutcome (α : Type) where
  | merged (out : List α)
  | fatal

/-- The Argo `AnySucceeded` gate over the fanned-out tile tasks: a tile
that failed produced no output (`none`). -/
def anySucceeded {α : Type} (tiles : List (Option α)) : Bool :=
  tiles.any Option.isSome

/-- The DAG of `src/unnamed/part_000`: `merge` runs iff
`process-id.AnySucceeded`; when it does not run the workflow ends fatal.
Modelled from the spec for the merge body itself: `coastlines-merge` is
not under `src/`, and per the spec (§4.8) it concatenates the outputs of
the tiles that produced output, simply omitting tiles that produced
none. -/
def runWorkflow {α : Type} (tiles : List (Option α)) : WorkflowOutcome α :=
  if anySucceeded tiles then .merged (tiles.filterMap id) else .fatal

/-- C8: the merge succeeds on any non-empty subset of tiles: if at
least one tile produced output, the workflow ends with a non-empty
merged dataset holding exactly the outputs the tiles produced (failed
tiles simply omitted); and the one fatal outcome is the case where no
tile produced usable output. -/
theorem merge_any_succeeded {α : Type} (tiles : List (Option α)) :
    ((∃ t ∈ tiles, t.isSome) →
      ∃ out, runWorkflow tiles = .merged out ∧ out ≠ [] ∧
        ∀ a : α, a ∈ out ↔ some a ∈ tiles) ∧
    ((∀ t ∈ tiles, t = none) → runWorkflow tiles = .fatal) := by
  constructor
  · rintro ⟨t, ht, hs⟩
    have hany : anySucceeded tiles = true :=
      List.any_eq_true.mpr ⟨t, ht, hs⟩
    refine ⟨tiles.filterMap id, by rw [runWorkflow, if_pos hany], ?_, ?_⟩
    · rcases Option.isSome_iff_exists.mp hs with ⟨a, rfl⟩
      have : a ∈ tiles.filterMap id :=
        List.mem_filterMap.mpr ⟨some a, ht, rfl⟩
      exact fun he => by rw [he] at this; exact List.not_mem_nil a this
    · intro a
      constructor
      · intro ha
        rcases List.mem_filterMap.mp ha with ⟨b, hb, hba⟩
        rwa [show b = some a from hba] at hb
      · intro ha
        exact List.mem_filterMap.mpr ⟨some a, ha, rfl⟩
  · intro hall
    have hany : anySucceeded tiles = false := by
      rw [anySucceeded, List.any_eq_false]
      intro t ht
      rw [hall t ht]
      exact Bool.not_eq_true _ ▸ (by simp)
    rw [runWorkflow, if_neg (by rw [hany]; exact Bool.false_ne_true)]

/-- Witness for C8: of two tiles one fails and one produces output
42, so the merge runs on the one-tile subset; a run where both tiles
fail is fatal. -/
theorem merge_any_succeeded_witness :
    (∃ out, runWorkflow [none, some 42] = WorkflowOutcome.merged out ∧
      out ≠ [] ∧ ∀ a : Nat, a ∈ out ↔ some a ∈ [none, some 42]) ∧
    runWorkflow ([none, none] : List (Option Nat)) = .fatal :=
  ⟨(merge_any_succeeded [none, some 42]).1 ⟨some 42, by decide, by decide⟩,
   (merge_any_succeeded ([none, none] : List (Option Nat))).2 (by decide)⟩

end Coastlines
